import Mathlib

/-!
Verification of the EVM Simulation Core (protosim) against its
natural-language specification.

The development shallowly embeds the Rust sources:
* byte strings are `List Nat` (each element a byte value, or an ASCII code
  when the list stands for a Rust `String`);
* 256-bit machine integers are `Nat` (unsigned) or `Int` (signed), with
  explicit truncation where the machine semantics requires it;
* fallible Rust functions return `RResult`; Rust panics are modelled by an
  outer `Option` whose `none` stands for the panic.
-/

namespace Protosim

/-- Mirror of Rust's `Result` type. -/
inductive RResult (ε : Type) (α : Type) where
  | ok (a : α) : RResult ε α
  | err (e : ε) : RResult ε α
  deriving DecidableEq, Repr

/-- Rust's `Result::map`. -/
def RResult.map {ε α β : Type} (f : α → β) : RResult ε α → RResult ε β
  | RResult.ok a => RResult.ok (f a)
  | RResult.err e => RResult.err e

/-! ## Byte-string utilities -/

/-- ASCII bytes of a string literal (all strings in scope are ASCII). -/
def strBytes (s : String) : List Nat :=
  s.data.map Char.toNat

/-- Big-endian interpretation of a byte list as a natural number. -/
def beToNat (bs : List Nat) : Nat :=
  bs.foldl (fun acc b => acc * 256 + b) 0

/-- Big-endian encoding of `v` on `n` bytes (most significant byte first). -/
def beBytes : Nat → Nat → List Nat
  | 0, _ => []
  | n + 1, v => beBytes n (v / 256) ++ [v % 256]

/-- Little-endian interpretation of a byte list (first byte least significant). -/
def leToNat (bs : List Nat) : Nat :=
  bs.foldr (fun b acc => acc * 256 + b) 0

/-- Little-endian encoding of `v` on `n` bytes. -/
def leBytes : Nat → Nat → List Nat
  | 0, _ => []
  | n + 1, v => v % 256 :: leBytes n (v / 256)

/-- Decimal ASCII rendering of a natural number (Rust's `Display` for integers). -/
def natDecimal (n : Nat) : List Nat :=
  (Nat.toDigits 10 n).map Char.toNat

/-- Rust `str::starts_with` on byte strings. -/
def startsWithStr (s p : List Nat) : Bool :=
  decide (s.take p.length = p)

/-- Rust `str::contains` on byte strings: some contiguous run equals `p`. -/
def containsStr (s p : List Nat) : Bool :=
  (List.range (s.length + 1)).any fun i => decide ((s.drop i).take p.length = p)

/-- Value of an ASCII hex digit, if it is one (`hex::FromHex` digit table). -/
def hexDigit (c : Nat) : Option Nat :=
  if 48 ≤ c ∧ c ≤ 57 then some (c - 48)
  else if 97 ≤ c ∧ c ≤ 102 then some (c - 87)
  else if 65 ≤ c ∧ c ≤ 70 then some (c - 55)
  else none

/-- `Vec::from_hex`: decode an ASCII hex string to bytes; fails on an odd
length or a non-hex character. -/
def hexDecode : List Nat → Option (List Nat)
  | [] => some []
  | [_] => none
  | c1 :: c2 :: rest => do
    let h ← hexDigit c1
    let l ← hexDigit c2
    let tl ← hexDecode rest
    pure ((h * 16 + l) :: tl)

/-! ## Keccak-256

Executable embedding of the Keccak-256 hash (as used by
`alloy_primitives::Keccak256` and `Bytecode::hash_slow` in the sources):
the Keccak-f[1600] permutation with rate 136 and the original 0x01/0x80
multi-rate padding. Lanes are `Nat` values kept below `2^64`.
-/

/-- Bitwise complement of a 64-bit lane. -/
def not64 (n : Nat) : Nat := n ^^^ (2 ^ 64 - 1)

/-- Left-rotation of a 64-bit lane by `k` (with `k < 64`). -/
def rotl64 (n k : Nat) : Nat :=
  ((n <<< k) % 2 ^ 64) ||| (n >>> (64 - k))

/-- Lane read from a 25-lane state; out-of-range indices give 0. -/
def lane (s : List Nat) (i : Nat) : Nat := s.getD i 0

/-- The rho offset table as association pairs `(x + 5 * y, offset)`, built
from the defining recurrence of FIPS 202: starting at lane (1, 0), step
`(x, y) ↦ (y, (2x + 3y) mod 5)`, with offset `(t+1)(t+2)/2 mod 64` at the
t-th position (lane (0, 0) keeps offset 0 and is the lookup default). -/
def rhoPairs : Nat → (Nat × Nat) × List (Nat × Nat)
  | 0 => ((1, 0), [])
  | t + 1 =>
    let prev := rhoPairs t
    let xy := prev.1
    ((xy.2, (2 * xy.1 + 3 * xy.2) % 5),
      prev.2 ++ [(xy.1 + 5 * xy.2, (t + 1) * (t + 2) / 2 % 64)])

/-- Rho rotation offset of the lane at index `x + 5 * y`. -/
def rhoOffset (i : Nat) : Nat :=
  ((((rhoPairs 24).2.find? fun p => p.1 = i).map (·.2)).getD 0)

/-- One pull of the degree-8 LFSR (`x^8 + x^6 + x^5 + x^4 + 1`) driving the
Keccak round constants: the emitted bit and the next register value. -/
def keccakLfsr (r : Nat) : Nat × Nat :=
  (r % 2, if 128 ≤ r then ((r * 2) % 256) ^^^ 0x71 else (r * 2) % 256)

/-- Round constants from the LFSR: seven pulls per round, bit j landing at
position `2^j - 1` of the 64-bit lane. -/
def keccakRCFrom : Nat → Nat → List Nat
  | 0, _ => []
  | n + 1, r =>
    let p := (List.range 7).foldl
      (fun acc j =>
        let pull := keccakLfsr acc.2
        (acc.1 + pull.1 * 2 ^ (2 ^ j - 1), pull.2))
      ((0 : Nat), r)
    p.1 :: keccakRCFrom n p.2

/-- The 24 Keccak-f[1600] round constants. -/
def keccakRC : List Nat :=
  keccakRCFrom 24 1

/-- One Keccak-f round: theta, rho, pi, chi, iota with round constant `rc`. -/
def keccakRound (s : List Nat) (rc : Nat) : List Nat :=
  let c := fun x =>
    ((((lane s x ^^^ lane s (x + 5)) ^^^ lane s (x + 10)) ^^^ lane s (x + 15)) ^^^
      lane s (x + 20))
  let d := fun x => c ((x + 4) % 5) ^^^ rotl64 (c ((x + 1) % 5)) 1
  -- state after theta
  let a := fun x y => lane s (x + 5 * y) ^^^ d x
  -- state after rho and pi: B[x,y] = rotl(A[(x+3y)%5, x], offset)
  let b := fun x y =>
    let x' := (x + 3 * y) % 5
    rotl64 (a x' x) (rhoOffset (x' + 5 * x))
  let chi := fun x y => b x y ^^^ (not64 (b ((x + 1) % 5) y) &&& b ((x + 2) % 5) y)
  (List.range 25).map fun i =>
    let x := i % 5
    let y := i / 5
    if i = 0 then chi 0 0 ^^^ rc else chi x y

/-- The full Keccak-f[1600] permutation (24 rounds). -/
def keccakP (s : List Nat) : List Nat :=
  keccakRC.foldl keccakRound s

/-- Keccak multi-rate padding to a multiple of 136 bytes. -/
def keccakPad (ms : List Nat) : List Nat :=
  let q := 136 - ms.length % 136
  if q = 1 then ms ++ [0x81]
  else ms ++ [0x01] ++ List.replicate (q - 2) 0 ++ [0x80]

/-- XOR one 136-byte block into the state and permute. -/
def keccakAbsorbBlock (s : List Nat) (block : List Nat) : List Nat :=
  keccakP ((List.range 25).map fun i =>
    if i < 17 then lane s i ^^^ leToNat ((block.drop (8 * i)).take 8) else lane s i)

/-- Absorb `n` consecutive 136-byte blocks of `bs`. -/
def keccakAbsorb : Nat → List Nat → List Nat → List Nat
  | 0, s, _ => s
  | n + 1, s, bs => keccakAbsorb n (keccakAbsorbBlock s (bs.take 136)) (bs.drop 136)

/-- Keccak-256 digest (32 bytes) of a byte string. -/
def keccak256 (ms : List Nat) : List Nat :=
  let p := keccakPad ms
  let s := keccakAbsorb (p.length / 136) (List.replicate 25 0) p
  leBytes 8 (lane s 0) ++ leBytes 8 (lane s 1) ++ leBytes 8 (lane s 2) ++
    leBytes 8 (lane s 3)

/-- Keccak-256 digest as one 256-bit value (big-endian bytes). -/
def keccak256Nat (ms : List Nat) : Nat :=
  beToNat (keccak256 ms)

/-! ## Account storage (component C1 of the spec)

The `AccountStorage` type lives in `src/evm/account_storage.rs`, which is not
part of the provided sources; only its callers (`tycho_db.rs`) are. It is
modelled here from the spec, section 4.1. Addresses, slot indices, slot
values and balances are `Nat`; the sparse maps are functions to `Option Nat`.
-/

/-- Mirror of revm's `AccountInfo`: balance, nonce, code hash, code. -/
structure AccountInfo where
  balance : Nat
  nonce : Nat
  code_hash : Nat
  code : List Nat
  deriving DecidableEq

/-- `AccountInfo::new(balance, nonce, code_hash, code)`. -/
def AccountInfo.new (balance nonce code_hash : Nat) (code : List Nat) : AccountInfo :=
  ⟨balance, nonce, code_hash, code⟩

/-- revm's `KECCAK_EMPTY` constant: Keccak-256 of the empty byte string. -/
def KECCAK_EMPTY : Nat :=
  0xc5d2460186f7233c927e7db2dcc703c0e500b653ca82273b7bfad8045d85a470

/-- `AccountInfo::default()`: zero balance and nonce, empty code. -/
def AccountInfo.default : AccountInfo :=
  ⟨0, 0, KECCAK_EMPTY, []⟩

/-- Modelled from the spec: an Account Record of the missing
`account_storage.rs` holds Account Info, a permanent storage map, a
temporary storage map and a `mocked` flag (spec section 3). -/
structure AccountRecord where
  info : AccountInfo
  permanent : Nat → Option Nat
  temp : Nat → Option Nat
  mocked : Bool

/-- A sparse map update: set key `k` to `v`, leave the rest. -/
def insertSlot (m : Nat → Option Nat) (k v : Nat) : Nat → Option Nat :=
  fun s => if s = k then some v else m s

/-- Apply a slot→value association list left to right (`HashMap` iteration;
the lists in scope have pairwise distinct keys, so the order is immaterial). -/
def applySlots (l : List (Nat × Nat)) (m : Nat → Option Nat) : Nat → Option Nat :=
  l.foldl (fun m kv => insertSlot m kv.1 kv.2) m

/-- The empty sparse map. -/
def emptySlots : Nat → Option Nat := fun _ => none

/-- Modelled from the spec: `AccountStorage` of the missing
`account_storage.rs` keeps accounts addressable (spec section 4.1). -/
def AccountStorage := Nat → Option AccountRecord

/-- `AccountStorage::new()`: starts empty. -/
def AccountStorage.new : AccountStorage := fun _ => none

/-- Mirror of `account_storage.rs`'s `StateUpdate`: each present field
replaces the corresponding cell; absent fields are no-ops. The storage
delta is an association list standing for the Rust `HashMap` (keys
pairwise distinct). -/
structure StateUpdate where
  storage : Option (List (Nat × Nat)) := none
  balance : Option Nat := none

/-- Modelled from the spec: `init_account` inserts or replaces the account;
no temporary state survives from a prior instance (spec section 4.1). -/
def AccountStorage.init_account (st : AccountStorage) (address : Nat)
    (info : AccountInfo) (permanent_storage : Option (List (Nat × Nat)))
    (mocked : Bool) : AccountStorage :=
  fun a =>
    if a = address then
      some ⟨info, applySlots (permanent_storage.getD []) emptySlots, emptySlots, mocked⟩
    else st a

/-- The effect of one `StateUpdate` on one account record: storage deltas
and balance land in permanent storage, everything else is untouched. -/
def applyStateUpdate (update : StateUpdate) (r : AccountRecord) : AccountRecord :=
  { r with
    info := { r.info with balance := update.balance.getD r.info.balance }
    permanent := applySlots (update.storage.getD []) r.permanent }

/-- Modelled from the spec: `update_account` applies storage deltas and
balance to permanent storage; a silent no-op when the account is absent
(spec section 4.1). -/
def AccountStorage.update_account (st : AccountStorage) (address : Nat)
    (update : StateUpdate) : AccountStorage :=
  fun a =>
    if a = address then (st a).map (applyStateUpdate update)
    else st a

/-- Modelled from the spec: `get_storage` returns temporary if present, else
permanent; absent when the slot is untracked or the account missing
(spec section 4.1). -/
def AccountStorage.get_storage (st : AccountStorage) (address index : Nat) :
    Option Nat :=
  (st address).bind fun r =>
    match r.temp index with
    | some v => some v
    | none => r.permanent index

/-- Modelled from the spec: `get_account_info` (spec section 4.1). -/
def AccountStorage.get_account_info (st : AccountStorage) (address : Nat) :
    Option AccountInfo :=
  (st address).map (·.info)

/-- Modelled from the spec: `account_present` (spec section 4.1). -/
def AccountStorage.account_present (st : AccountStorage) (address : Nat) : Bool :=
  (st address).isSome

/-! ## PreCachedDB (`src/evm/tycho_db.rs`) -/

/-- Mirror of `database::BlockHeader`: number, hash, timestamp. -/
structure BlockHeader where
  number : Nat
  hash : Nat
  timestamp : Nat
  deriving DecidableEq

/-- Mirror of `PreCachedDBError` (`tycho_db.rs`). The client-error variant
carries no payload relevant here. -/
inductive PreCachedDBError where
  | MissingAccount (address : Nat)
  | BlockNotSet
  | TychoClientError
  deriving DecidableEq

/-- Mirror of `ChangeType` (`tycho_models.rs`, via its use in `tycho_db.rs`). -/
inductive ChangeType where
  | Update
  | Deletion
  | Creation
  deriving DecidableEq

/-- Mirror of the streaming `AccountUpdate`: address, slot deltas, optional
balance, optional code, change kind (the chain tag is not read by
`PreCachedDB::update` and is omitted). -/
structure AccountUpdate where
  address : Nat
  slots : List (Nat × Nat)
  balance : Option Nat
  code : Option (List Nat)
  change : ChangeType

/-- Mirror of `PreCachedDBInner`: account storage plus the current block.
The `Arc<RwLock<..>>` wrapper is concurrency plumbing; the embedding works
on the guarded value directly. -/
structure PreCachedDBInner where
  accounts : AccountStorage
  block : Option BlockHeader

/-- `PreCachedDB::update`, one streaming batch under the write lock.
`none` models the `expect` panics of the Creation branch (missing code or
balance). `Bytecode::hash_slow` is the Keccak-256 of the raw code. -/
def PreCachedDB.update (db : PreCachedDBInner) (account_updates : List AccountUpdate)
    (block : Option BlockHeader) : Option PreCachedDBInner :=
  let db := { db with block := block }
  account_updates.foldlM
    (fun acc update =>
      match update.change with
      | ChangeType.Update =>
        some { acc with
          accounts := acc.accounts.update_account update.address
            { storage := some update.slots, balance := update.balance } }
      | ChangeType.Deletion =>
        -- TODO in the source: deletion is recognized but not implemented.
        some acc
      | ChangeType.Creation => do
        let code ← update.code
        let balance ← update.balance
        pure { acc with
          accounts := acc.accounts.init_account update.address
            (AccountInfo.new balance 0 (keccak256Nat code) code)
            (some update.slots) true })
    db

/-- `PreCachedDB::init_account`: always inserts with `mocked = true`
(bytecode analysis performed by `to_analysed` does not change the bytes). -/
def PreCachedDB.init_account (db : PreCachedDBInner) (address : Nat)
    (account : AccountInfo) (permanent_storage : Option (List (Nat × Nat))) :
    PreCachedDBInner :=
  { db with accounts := db.accounts.init_account address account permanent_storage true }

/-- `PreCachedDB::get_storage` (the blocking wrapper of `get_storage_async`). -/
def PreCachedDB.get_storage (db : PreCachedDBInner) (address index : Nat) :
    Option Nat :=
  db.accounts.get_storage address index

/-- The slots of `l` that are tracked by the lookup `gs`, paired with their
tracked values (the `update_state` loop over `update_info.storage.keys()`). -/
def trackedPairs (gs : Nat → Option Nat) (l : List (Nat × Nat)) : List (Nat × Nat) :=
  l.filterMap fun kv => (gs kv.1).map fun s => (kv.1, s)

/-- The revert entry `update_state` records for `(address, update_info)`:
the prior balance when the account exists, and, when the update writes
storage, the prior values of the written slots that are tracked. -/
def revertEntryFor (st : AccountStorage) (address : Nat) (update_info : StateUpdate) :
    StateUpdate where
  storage := update_info.storage.map (trackedPairs (st.get_storage address))
  balance := (st.get_account_info address).map (·.balance)

/-- One iteration of the `update_state` loop: compute the revert entry for
`(address, update_info)` from the current state, then apply the update. -/
def updateStateStep (acc : AccountStorage × List (Nat × StateUpdate))
    (entry : Nat × StateUpdate) : AccountStorage × List (Nat × StateUpdate) :=
  (acc.1.update_account entry.1 entry.2,
    acc.2 ++ [(entry.1, revertEntryFor acc.1 entry.1 entry.2)])

/-- `PreCachedDB::update_state`: applies the updates under the write lock,
sets the block, and returns the revert map. The updates are an association
list standing for the Rust `HashMap` (addresses pairwise distinct). -/
def PreCachedDB.update_state (db : PreCachedDBInner)
    (updates : List (Nat × StateUpdate)) (block : BlockHeader) :
    PreCachedDBInner × List (Nat × StateUpdate) :=
  let res := updates.foldl updateStateStep (db.accounts, [])
  ({ accounts := res.1, block := some block }, res.2)

/-- `PreCachedDB::block_number`. -/
def PreCachedDB.block_number (db : PreCachedDBInner) : Option Nat :=
  db.block.map (·.number)

/-- `DatabaseRef::basic_ref` for `PreCachedDB`. -/
def PreCachedDB.basic_ref (db : PreCachedDBInner) (address : Nat) :
    RResult PreCachedDBError (Option AccountInfo) :=
  match db.accounts.get_account_info address with
  | some acc => RResult.ok (some acc)
  | none => RResult.err (PreCachedDBError.MissingAccount address)

/-- `DatabaseRef::storage_ref` for `PreCachedDB`. -/
def PreCachedDB.storage_ref (db : PreCachedDBInner) (address index : Nat) :
    RResult PreCachedDBError Nat :=
  match db.accounts.get_storage address index with
  | some storage_value => RResult.ok storage_value
  | none =>
    if db.accounts.account_present address then
      -- only non-zero values are stored: a present account's untracked slot is zero
      RResult.ok 0
    else
      RResult.err (PreCachedDBError.MissingAccount address)

/-! ## Golden-section search (`protosim/src/gss.rs`)

Signed 256-bit values are embedded as `Int`: the source's `I256` arithmetic
panics on overflow (and `mul_div`'s narrowing `try_into` panics likewise),
so exact `Int` arithmetic agrees with it on every run that completes, and
all magnitudes arising in the statements below stay far under `2^255`.
-/

/-- `INVPHI`: `(sqrt 5 - 1) / 2 * 2^32`, truncated. -/
def INVPHI : Int := 2654435769

/-- `INVPHI2`: `(3 - sqrt 5) / 2 * 2^32`, truncated. -/
def INVPHI2 : Int := 1640531526

/-- `DENOM`: `2^32`. -/
def DENOM : Int := 4294967296

/-- `I256::from_raw`: reinterpret an unsigned 256-bit value as signed. -/
def i256FromRaw (v : Nat) : Int :=
  if v < 2 ^ 255 then (v : Int) else (v : Int) - 2 ^ 256

/-- `I256_to_U256` from `gss.rs`: clamp non-positive values to zero. -/
def I256_to_U256 (to_convert : Int) : Nat :=
  if to_convert ≤ 0 then 0 else to_convert.toNat

/-- `mul_div(a, b, denom) = (a * b) / denom`, truncating toward zero
(Rust's `I256` division). -/
def mul_div (a b denom : Int) : Int :=
  Int.tdiv (a * b) denom

/-- The mutable state of the `gss` iteration loop. -/
structure GssState where
  min_bound : Int
  max_bound : Int
  xc : Int
  yc : Int
  xd : Int
  yd : Int
  h : Int
  deriving DecidableEq

/-- One iteration of the `for _ in 0..max_iter` loop body of `gss`. -/
def gssStep (f : Int → Int) (st : GssState) : GssState :=
  if st.yc < st.yd then
    let h := mul_div INVPHI st.h DENOM
    let xc := st.min_bound + mul_div INVPHI2 h DENOM
    { min_bound := st.min_bound, max_bound := st.xd, xc := xc, yc := f xc,
      xd := st.xc, yd := st.yc, h := h }
  else
    let min_bound := st.xc
    let h := mul_div INVPHI st.h DENOM
    let xd := min_bound + mul_div INVPHI h DENOM
    { min_bound := min_bound, max_bound := st.max_bound, xc := st.xd, yc := st.yd,
      xd := xd, yd := f xd, h := h }

/-- The `gss` loop, iterated `max_iter` times. -/
def gssLoop (f : Int → Int) : Nat → GssState → GssState
  | 0, st => st
  | n + 1, st => gssLoop f n (gssStep f st)

/-- The final comparison of `gss`: return the bounds flanking whichever
interior probe has the smaller image, clamped to unsigned. -/
def gssFinish (st : GssState) : Nat × Nat :=
  if st.yc < st.yd then (I256_to_U256 st.min_bound, I256_to_U256 st.xd)
  else (I256_to_U256 st.xc, I256_to_U256 st.max_bound)

/-- `gss` from `gss.rs`, specialized to `honour_bounds = true` (the
`honour_bounds = false` path expands the interval through `bracket` first
and is not exercised by any claim settled here). Bounds come in as
unsigned 256-bit values and are reinterpreted as signed, exactly as the
source's `I256::from_raw` does after the swap. -/
def gss (f : Int → Int) (min_bound₀ max_bound₀ : Nat) (tol : Int)
    (max_iter : Nat) : Nat × Nat :=
  let min_boundU := if min_bound₀ > max_bound₀ then max_bound₀ else min_bound₀
  let max_boundU := if min_bound₀ > max_bound₀ then min_bound₀ else max_bound₀
  let min_bound := i256FromRaw min_boundU
  let max_bound := i256FromRaw max_boundU
  let h := max_bound - min_bound
  if h ≤ tol then (I256_to_U256 min_bound, I256_to_U256 max_bound)
  else
    let xc := min_bound + mul_div INVPHI2 h DENOM
    let yc := f xc
    let xd := min_bound + mul_div INVPHI h DENOM
    let yd := f xd
    gssFinish (gssLoop f max_iter ⟨min_bound, max_bound, xc, yc, xd, yd, h⟩)

/-! ## Revert-reason classification (`src/protocol/vm/utils.rs`)

Rust `String`s are byte lists here. `ethabi::decode` is embedded for the
two parameter shapes the source passes it (`Uint(256)` and `String`); the
lossy UTF-8 step of the string decoder is the identity on the decoded
bytes (every payload examined by a theorem below is ASCII or fails before
reaching it).
-/

/-- `ethabi::decode(&[ParamType::Uint(256)], data)`: the leading 32-byte
word, big-endian; fails when fewer than 32 bytes remain. -/
def ethabiDecodeUint (data : List Nat) : Option Nat :=
  if 32 ≤ data.length then some (beToNat (data.take 32)) else none

/-- `ethabi::decode(&[ParamType::String], data)`: head word is the tail
offset, the word there is the byte length, then the bytes themselves.
Fails when any read runs past the end. -/
def ethabiDecodeString (data : List Nat) : Option (List Nat) :=
  if 32 ≤ data.length then
    let offset := beToNat (data.take 32)
    if offset + 32 ≤ data.length then
      let len := beToNat ((data.drop offset).take 32)
      if offset + 32 + len ≤ data.length then
        some ((data.drop (offset + 32)).take len)
      else none
    else none
  else none

/-- `get_solidity_panic_codes` from `utils.rs`. The keys are written
exactly as the source inserts them: decimal 17, 18, 33, 34 and 51
alongside hexadecimal 0x32, 0x41 and 0x51 (so `EmptyArray` sits at
decimal 51 = 0x33, not at Solidity's 0x31 = 49). -/
def get_solidity_panic_codes (code : Nat) : Option (List Nat) :=
  if code = 0 then some (strBytes "GenericCompilerPanic")
  else if code = 1 then some (strBytes "AssertionError")
  else if code = 17 then some (strBytes "ArithmeticOver/Underflow")
  else if code = 18 then some (strBytes "ZeroDivisionError")
  else if code = 33 then some (strBytes "UnknownEnumMember")
  else if code = 34 then some (strBytes "BadStorageByteArrayEncoding")
  else if code = 51 then some (strBytes "EmptyArray")
  else if code = 0x32 then some (strBytes "OutOfBounds")
  else if code = 0x41 then some (strBytes "OutOfMemory")
  else if code = 0x51 then some (strBytes "BadFunctionPointer")
  else none

/-- The shared tail of `parse_solidity_error_message`: plain string decode
of the whole payload, then from offset 4, then the fallback message.
`none` models the panic of the `&data_bytes[4..]` slice on short data. -/
def parseFallthrough (data_bytes data : List Nat) : Option (List Nat) :=
  match ethabiDecodeString data_bytes with
  | some s => some s
  | none =>
    if data_bytes.length < 4 then none
    else
      match ethabiDecodeString (data_bytes.drop 4) with
      | some s => some s
      | none => some (strBytes "Failed to decode: " ++ data)

/-- `parse_solidity_error_message` from `utils.rs`. The argument is the
ASCII revert string (expected shape `0x…`); `none` models a Rust panic
(out-of-range slice, or `U256::as_u64` on a panic code at or above
`2^64`). -/
def parse_solidity_error_message (data : List Nat) : Option (List Nat) :=
  if data.length < 2 then none -- the slice data[2..] panics
  else
    match hexDecode (data.drop 2) with
    | none => some (strBytes "Failed to decode: " ++ data)
    | some data_bytes =>
      if data_bytes.take 4 = [0x08, 0xc3, 0x79, 0xa0] then
        -- Solidity Error(string)
        match ethabiDecodeString (data_bytes.drop 4) with
        | some error_string => some error_string
        | none => parseFallthrough data_bytes data
      else if data_bytes.take 4 = [0x4e, 0x48, 0x7b, 0x71] then
        -- Solidity Panic(uint256)
        match ethabiDecodeUint (data_bytes.drop 4) with
        | some error_code =>
          if error_code < 2 ^ 64 then
            some ((get_solidity_panic_codes error_code).getD
              (strBytes "Panic(" ++ natDecimal error_code ++ strBytes ")"))
          else none -- error_code.as_u64() panics
        | none => parseFallthrough data_bytes data
      else parseFallthrough data_bytes data

/-- Modelled from the spec: `SimulationEngineError` lives in
`src/evm/simulation.rs`, which is not among the provided sources; the
spec's error taxonomy (section 7) and the variants used by `utils.rs`
give its shape. Variants not mentioned by any claim are collapsed into
`other`. -/
inductive SimulationEngineError where
  | TransactionError (data : List Nat) (gas_used : Option Nat)
  | OutOfGas (message : List Nat) (pool_state : List Nat)
  | StorageError (message : List Nat)
  | other
  deriving DecidableEq

/-- Does the coerced error carry the `OutOfGas` tag? -/
def SimulationEngineError.isOutOfGas : SimulationEngineError → Bool
  | SimulationEngineError.OutOfGas _ _ => true
  | _ => false

/-- `maybe_coerce_error` from `utils.rs`. `none` models a panic escaping
from `parse_solidity_error_message`. The source compares
`gas_used as f64 / gas_limit as f64 >= 0.97`; the embedding uses the
exact rational comparison `100 * gas_used ≥ 97 * gas_limit`. The
`OutOfGas` message text interpolates a floating-point percentage in the
source; no claim observes it, and it is embedded as the fixed surrounding
text with the original data appended. -/
def maybe_coerce_error : SimulationEngineError → List Nat → Option Nat →
    Option SimulationEngineError
  | SimulationEngineError.TransactionError data gas_used, pool_state, gas_limit =>
    if startsWithStr data (strBytes "0x") then
      match parse_solidity_error_message data with
      | none => none
      | some reason =>
        let coerced := SimulationEngineError.TransactionError
          (strBytes "Revert! Reason: " ++ reason) gas_used
        match gas_limit, gas_used with
        | some gl, some gu =>
          if 100 * gu ≥ 97 * gl then
            some (SimulationEngineError.OutOfGas
              (strBytes "SimulationError: Likely out-of-gas. Original error: " ++
                strBytes "Revert! Reason: " ++ reason)
              pool_state)
          else some coerced
        | _, _ => some coerced
    else if containsStr data (strBytes "OutOfGas") then
      some (SimulationEngineError.OutOfGas
        (strBytes "SimulationError: out-of-gas. Original error: " ++ data)
        pool_state)
    else some (SimulationEngineError.TransactionError data gas_used)
  | e, _, _ => some e

/-! ## Calldata encoding (`src/protocol/vm/protosim_contract.rs`)

The adapter ABI's function inputs are static types; the embedding covers
the static subset of `ethabi` tokens (each encodes to one 32-byte word). -/

/-- Static `ethabi::ParamType`s as used by the adapter ABI. -/
inductive ParamType where
  | address
  | uint (bits : Nat)
  | fixedBytes (len : Nat)
  | bool
  deriving DecidableEq

/-- `ParamType`'s canonical signature-string rendering (`kind.to_string()`). -/
def ParamType.typeString : ParamType → List Nat
  | ParamType.address => strBytes "address"
  | ParamType.uint bits => strBytes "uint" ++ natDecimal bits
  | ParamType.fixedBytes len => strBytes "bytes" ++ natDecimal len
  | ParamType.bool => strBytes "bool"

/-- Static `ethabi::Token`s. -/
inductive Token where
  | address (a : Nat)
  | uint (v : Nat)
  | fixedBytes (bs : List Nat)
  | bool (b : Bool)
  deriving DecidableEq

/-- One token's 32-byte word: numbers are left-padded big-endian, fixed
byte strings are right-padded with zeros. -/
def Token.encodeWord : Token → List Nat
  | Token.address a => beBytes 32 a
  | Token.uint v => beBytes 32 v
  | Token.fixedBytes bs => bs ++ List.replicate (32 - bs.length) 0
  | Token.bool b => beBytes 32 (if b then 1 else 0)

/-- `ethabi::encode` on static tokens: the concatenation of the words. -/
def ethabiEncode (args : List Token) : List Nat :=
  (args.map Token.encodeWord).flatten

/-- Mirror of `ProtosimError`'s encoding variant as a plain message. -/
inductive ProtosimError where
  | EncodingError (msg : List Nat)
  deriving DecidableEq

/-- The canonical signature string `name(type1,type2,…)`. -/
def canonicalSignature (fname : List Nat) (inputs : List ParamType) : List Nat :=
  fname ++ strBytes "(" ++
    (List.intersperse (strBytes ",") (inputs.map ParamType.typeString)).flatten ++
    strBytes ")"

/-- `ProtoSimContract::encode_input`: look the function up in the ABI,
check the arity, and emit selector ∥ encoded arguments, the selector
being the first four bytes of the Keccak-256 of the canonical signature. -/
def encode_input (abi : List (List Nat × List ParamType)) (fname : List Nat)
    (args : List Token) : RResult ProtosimError (List Nat) :=
  match (abi.find? fun f => f.1 = fname).map (·.2) with
  | none => RResult.err (ProtosimError.EncodingError
      (strBytes "Function name not found in the ABI"))
  | some inputs =>
    if inputs.length ≠ args.length then
      RResult.err (ProtosimError.EncodingError (strBytes "Invalid argument count"))
    else
      let selector := (keccak256 (canonicalSignature fname inputs)).take 4
      RResult.ok (selector ++ ethabiEncode args)

/-! ## Capabilities (`src/protocol/vm/models.rs`) -/

/-- Mirror of the `Capability` enum. -/
inductive Capability where
  | SellSide
  | BuySide
  | PriceFunction
  | FeeOnTransfer
  | ConstantPrice
  | TokenBalanceIndependent
  | ScaledPrice
  | HardLimits
  | MarginalPrice
  deriving DecidableEq

/-- Mirror of `SimulationError::DecodingError` as carried by `from_uint`. -/
inductive SimulationError where
  | DecodingError (msg : List Nat)
  deriving DecidableEq

/-- `Capability::from_uint`. The source first narrows with
`value.as_u32()`, which panics for values at or above `2^32`; the outer
`Option`'s `none` models that panic. -/
def Capability.from_uint (value : Nat) :
    Option (RResult SimulationError Capability) :=
  if value < 2 ^ 32 then
    some (match value with
      | 1 => RResult.ok Capability.SellSide
      | 2 => RResult.ok Capability.BuySide
      | 3 => RResult.ok Capability.PriceFunction
      | 4 => RResult.ok Capability.FeeOnTransfer
      | 5 => RResult.ok Capability.ConstantPrice
      | 6 => RResult.ok Capability.TokenBalanceIndependent
      | 7 => RResult.ok Capability.ScaledPrice
      | 8 => RResult.ok Capability.HardLimits
      | 9 => RResult.ok Capability.MarginalPrice
      | _ => RResult.err (SimulationError.DecodingError
          (strBytes "Unexpected Capability value")))
  else none

/-! ## `BytesCodec` (`src/protocol/mod.rs`)

`U256` values are `Nat` below `2^256`, `H160`/`H256` hashes are `Nat`
below `2^160`/`2^256`; `Bytes` is a byte list. -/

/-- `U256::to_bytes`: the 32-byte big-endian encoding. -/
def u256ToBytes (v : Nat) : List Nat :=
  beBytes 32 v

/-- `U256::from_bytes`: left-pad to 32 bytes and read big-endian; the
copy panics (`none`) when more than 32 bytes come in. -/
def u256FromBytes (bytes : List Nat) : Option Nat :=
  if bytes.length ≤ 32 then some (beToNat bytes) else none

/-- `H160::to_bytes`: the 20 raw bytes. -/
def h160ToBytes (v : Nat) : List Nat :=
  beBytes 20 v

/-- `H160::from_bytes` (`H160::from_slice`): panics (`none`) unless
exactly 20 bytes come in. -/
def h160FromBytes (bytes : List Nat) : Option Nat :=
  if bytes.length = 20 then some (beToNat bytes) else none

/-- `H256::to_bytes`: the 32 raw bytes. -/
def h256ToBytes (v : Nat) : List Nat :=
  beBytes 32 v

/-- `H256::from_bytes` (`H256::from_slice`): panics (`none`) unless
exactly 32 bytes come in. -/
def h256FromBytes (bytes : List Nat) : Option Nat :=
  if bytes.length = 32 then some (beToNat bytes) else none

/-! ## Theorems -/

/-! ### C3: golden-section search on `(10000 - x)^2` -/

/-- The objective of the large-interval `gss` test: `f x = (10000 - x)^2`. -/
def c3f : Int → Int := fun x => (10000 - x) * (10000 - x)

/-- The loop state of `gss c3f 0 10000 1 10000` on entry to the iteration
loop (after the initial probes). -/
def gssC3Init : GssState := ⟨0, 10000, 3819, 38204761, 6180, 14592400, 10000⟩

/-- The loop state reached after 30 iterations; from here the iteration is
2-periodic (the two interior probes keep swapping). -/
def gssC3Fix : GssState := ⟨9987, 9987, 9987, 169, 9988, 144, 0⟩

/-- Splitting a `gssLoop` run. -/
theorem gssLoop_add (f : Int → Int) (m n : Nat) (st : GssState) :
    gssLoop f (m + n) st = gssLoop f n (gssLoop f m st) := by
  induction m generalizing st with
  | zero => simp [gssLoop]
  | succ m ih =>
    rw [Nat.succ_add]
    exact ih (gssStep f st)

/-- A state on a 2-cycle of `gssStep` is preserved by any even number of
iterations. -/
theorem gssLoop_two_periodic (f : Int → Int) (st : GssState)
    (h : gssStep f (gssStep f st) = st) (k : Nat) :
    gssLoop f (2 * k) st = st := by
  induction k with
  | zero => rfl
  | succ k ih =>
    have : 2 * (k + 1) = (2 * k) + 1 + 1 := by ring
    rw [this]
    show gssLoop f (2 * k) (gssStep f (gssStep f st)) = st
    rw [h]
    exact ih

set_option maxRecDepth 100000 in
/-- C3: `gss` on `f x = (10000 - x)^2` with bounds `[0, 10000]`, `tol = 1`,
`max_iter = 10000` and `honour_bounds = true` returns a pair whose lower
bound is exactly `9987` (not the true minimizer `10000`), the documented
rounding artifact of the truncating `mul_div` with `2^32` fixed-point
constants. -/
theorem gss_large_interval_lower_bound :
    (gss c3f 0 10000 1 10000).1 = 9987 := by
  have h30 : gssLoop c3f 30 gssC3Init = gssC3Fix := by decide
  have hper : gssStep c3f (gssStep c3f gssC3Fix) = gssC3Fix := by decide
  have hall : gssLoop c3f 10000 gssC3Init = gssC3Fix := by
    have he : (10000 : Nat) = 30 + 2 * 4985 := by norm_num
    rw [he, gssLoop_add, h30, gssLoop_two_periodic c3f gssC3Fix hper]
  have hbody : gss c3f 0 10000 1 10000 = gssFinish (gssLoop c3f 10000 gssC3Init) := by
    show (if (10000 : Int) ≤ 1 then (I256_to_U256 0, I256_to_U256 10000)
      else gssFinish (gssLoop c3f 10000 gssC3Init)) =
        gssFinish (gssLoop c3f 10000 gssC3Init)
    rw [if_neg (by norm_num)]
  rw [hbody, hall]
  decide

/-! ### C4: the Solidity panic-code table -/

/-- C4: the panic-code table diverges from the spec at `EmptyArray`. The
source inserts decimal 51 (= 0x33) where Solidity (and the spec) put
0x31 = 49: decoding the Panic payload with code 0x31 yields `Panic(49)`
instead of `EmptyArray`, while the code-1 payload does parse to
`AssertionError` as the spec states. -/
theorem parse_panic_code_table_evaluation :
    parse_solidity_error_message (strBytes
        "0x4e487b710000000000000000000000000000000000000000000000000000000000000031") =
      some (strBytes "Panic(49)") ∧
    parse_solidity_error_message (strBytes
        "0x4e487b710000000000000000000000000000000000000000000000000000000000000001") =
      some (strBytes "AssertionError") ∧
    get_solidity_panic_codes 0x31 = none ∧
    get_solidity_panic_codes 0x33 = some (strBytes "EmptyArray") := by
  refine ⟨by decide, by decide, by decide, by decide⟩

/-! ### C5: `update` and the current block header -/

/-- Every branch of the `update` batch loop leaves the block field of the
accumulator unchanged. -/
theorem update_foldl_block_invariant (us : List AccountUpdate)
    (acc r : PreCachedDBInner)
    (h : us.foldlM
      (fun acc update =>
        match update.change with
        | ChangeType.Update =>
          some { acc with
            accounts := acc.accounts.update_account update.address
              { storage := some update.slots, balance := update.balance } }
        | ChangeType.Deletion => some acc
        | ChangeType.Creation => do
          let code ← update.code
          let balance ← update.balance
          pure { acc with
            accounts := acc.accounts.init_account update.address
              (AccountInfo.new balance 0 (keccak256Nat code) code)
              (some update.slots) true })
      acc = some r) :
    r.block = acc.block := by
  induction us generalizing acc with
  | nil =>
    simp only [List.foldlM_nil] at h
    cases h
    rfl
  | cons u t ih =>
    simp only [List.foldlM_cons] at h
    cases hc : u.change with
    | Update =>
      rw [hc] at h
      simp only [Option.bind_eq_bind, Option.some_bind] at h
      have hr := ih _ h
      exact hr
    | Deletion =>
      rw [hc] at h
      simp only [Option.bind_eq_bind, Option.some_bind] at h
      have hr := ih _ h
      exact hr
    | Creation =>
      rw [hc] at h
      cases hcode : u.code with
      | none => rw [hcode] at h; simp at h
      | some code =>
        cases hbal : u.balance with
        | none => rw [hcode, hbal] at h; simp at h
        | some bal =>
          rw [hcode, hbal] at h
          simp only [Option.bind_eq_bind, Option.some_bind, Option.pure_def] at h
          have hr := ih _ h
          exact hr

/-- C5 (amended): `update(account_updates, block)` stores the supplied
optional header unconditionally: it sets the current header when one is
supplied and clears it to unset when the argument is absent. -/
theorem update_stores_block_argument (db : PreCachedDBInner)
    (us : List AccountUpdate) (block : Option BlockHeader) (r : PreCachedDBInner)
    (h : PreCachedDB.update db us block = some r) :
    r.block = block := by
  exact update_foldl_block_invariant us _ r h

/-- Witness for C5: updating with no batch and no header on a database whose
header is block 1 yields a database with no header attached. -/
theorem update_stores_block_argument_witness :
    (PreCachedDB.update ⟨AccountStorage.new, some ⟨1, 0, 0⟩⟩ [] none).map
        PreCachedDBInner.block = some none := by
  have h : PreCachedDB.update ⟨AccountStorage.new, some ⟨1, 0, 0⟩⟩ [] none =
      some ⟨AccountStorage.new, none⟩ := rfl
  have hb := update_stores_block_argument ⟨AccountStorage.new, some ⟨1, 0, 0⟩⟩ [] none
    ⟨AccountStorage.new, none⟩ h
  rw [h]
  exact congrArg some hb

/-- Counterexample for C5 as stated: with a header attached (block 1) and
the optional block argument absent, `update` does not leave the header
unchanged — it clears it. -/
theorem update_none_block_clears_header :
    (PreCachedDB.update ⟨AccountStorage.new, some ⟨1, 0, 0⟩⟩ [] none).map
        PreCachedDBInner.block = some none ∧
    (none : Option BlockHeader) ≠ some ⟨1, 0, 0⟩ := by
  exact ⟨rfl, by decide⟩

/-! ### C9: `Capability::from_uint` -/

/-- C9 (amended): `from_uint` maps 1–9 to the matching capability and
returns a `DecodingError` for every other value below `2^32`; for values
at or above `2^32` the narrowing `as_u32()` panics, so no `DecodingError`
is returned there. -/
theorem capability_from_uint_table :
    (Capability.from_uint 1 = some (RResult.ok Capability.SellSide) ∧
      Capability.from_uint 2 = some (RResult.ok Capability.BuySide) ∧
      Capability.from_uint 3 = some (RResult.ok Capability.PriceFunction) ∧
      Capability.from_uint 4 = some (RResult.ok Capability.FeeOnTransfer) ∧
      Capability.from_uint 5 = some (RResult.ok Capability.ConstantPrice) ∧
      Capability.from_uint 6 = some (RResult.ok Capability.TokenBalanceIndependent) ∧
      Capability.from_uint 7 = some (RResult.ok Capability.ScaledPrice) ∧
      Capability.from_uint 8 = some (RResult.ok Capability.HardLimits) ∧
      Capability.from_uint 9 = some (RResult.ok Capability.MarginalPrice)) ∧
    (∀ v : Nat, v < 2 ^ 32 → (v = 0 ∨ 10 ≤ v) →
      Capability.from_uint v = some (RResult.err (SimulationError.DecodingError
        (strBytes "Unexpected Capability value")))) ∧
    (∀ v : Nat, 2 ^ 32 ≤ v → Capability.from_uint v = none) := by
  refine ⟨by decide, ?_, ?_⟩
  · intro v hlt hout
    unfold Capability.from_uint
    rw [if_pos hlt]
    rcases hout with h0 | h10
    · subst h0; rfl
    · obtain ⟨w, rfl⟩ : ∃ w, v = w + 10 := ⟨v - 10, by omega⟩
      rfl
  · intro v hge
    unfold Capability.from_uint
    rw [if_neg (by omega)]

/-- Witness for C9: value 9 decodes to `MarginalPrice`, value 10 gives a
decoding error, and value `2^32` gives no result at all. -/
theorem capability_from_uint_table_witness :
    Capability.from_uint 10 = some (RResult.err (SimulationError.DecodingError
      (strBytes "Unexpected Capability value"))) ∧
    Capability.from_uint (2 ^ 32) = none := by
  exact ⟨capability_from_uint_table.2.1 10 (by norm_num) (Or.inr (by norm_num)),
    capability_from_uint_table.2.2 (2 ^ 32) (le_refl _)⟩

/-- Counterexample for C9 as stated: at `2^32` the claim demands a
`DecodingError` result, but the call produces no result (the `as_u32`
narrowing panics). -/
theorem capability_from_uint_overflow_panics :
    (Capability.from_uint (2 ^ 32)).isSome = false := by
  decide

/-! ### C10: `BytesCodec` round trips -/

/-- `beBytes` always yields the requested number of bytes. -/
theorem beBytes_length (n v : Nat) : (beBytes n v).length = n := by
  induction n generalizing v with
  | zero => rfl
  | succ n ih => simp [beBytes, ih]

/-- Reading back a big-endian encoding recovers the value, provided it fits. -/
theorem beToNat_beBytes (n v : Nat) (h : v < 256 ^ n) :
    beToNat (beBytes n v) = v := by
  induction n generalizing v with
  | zero =>
    have hv : v = 0 := by simpa using h
    subst hv
    rfl
  | succ n ih =>
    have hdiv : v / 256 < 256 ^ n := by
      rw [Nat.div_lt_iff_lt_mul (by norm_num)]
      calc v < 256 ^ (n + 1) := h
        _ = 256 ^ n * 256 := by ring
    have hrec := ih (v / 256) hdiv
    simp only [beBytes, beToNat, List.foldl_append, List.foldl_cons, List.foldl_nil]
    show beToNat (beBytes n (v / 256)) * 256 + v % 256 = v
    rw [hrec]
    omega

/-- C10: the `BytesCodec` conversions round-trip: every `U256`, `H160` and
`H256` value is reconstructed from its `Bytes` encoding. -/
theorem bytes_codec_roundtrip :
    (∀ v : Nat, v < 2 ^ 256 → u256FromBytes (u256ToBytes v) = some v) ∧
    (∀ v : Nat, v < 2 ^ 160 → h160FromBytes (h160ToBytes v) = some v) ∧
    (∀ v : Nat, v < 2 ^ 256 → h256FromBytes (h256ToBytes v) = some v) := by
  have h256' : (2 : Nat) ^ 256 = 256 ^ 32 := by norm_num
  have h160' : (2 : Nat) ^ 160 = 256 ^ 20 := by norm_num
  refine ⟨fun v hv => ?_, fun v hv => ?_, fun v hv => ?_⟩
  · rw [u256FromBytes, u256ToBytes, if_pos (by rw [beBytes_length])]
    rw [beToNat_beBytes 32 v (h256' ▸ hv)]
  · rw [h160FromBytes, h160ToBytes, if_pos (by rw [beBytes_length])]
    rw [beToNat_beBytes 20 v (h160' ▸ hv)]
  · rw [h256FromBytes, h256ToBytes, if_pos (by rw [beBytes_length])]
    rw [beToNat_beBytes 32 v (h256' ▸ hv)]

/-- Witness for C10: concrete round trips through all three codecs. -/
theorem bytes_codec_roundtrip_witness :
    u256FromBytes (u256ToBytes 500) = some 500 ∧
    h160FromBytes (h160ToBytes 0x7a250d5630b4cf539739df2c5dacb4c659f2488d) =
      some 0x7a250d5630b4cf539739df2c5dacb4c659f2488d ∧
    h256FromBytes (h256ToBytes (2 ^ 256 - 1)) = some (2 ^ 256 - 1) := by
  exact ⟨bytes_codec_roundtrip.1 500 (by norm_num),
    bytes_codec_roundtrip.2.1 _ (by norm_num),
    bytes_codec_roundtrip.2.2 _ (by norm_num)⟩

/-! ### C2: `storage_ref` on the PreCached variant -/

/-- A tracked slot implies a present account. -/
theorem get_storage_some_present (st : AccountStorage) (a s v : Nat)
    (h : st.get_storage a s = some v) : st.account_present a = true := by
  unfold AccountStorage.get_storage at h
  unfold AccountStorage.account_present
  cases hacc : st a with
  | none => rw [hacc] at h; cases h
  | some r => rfl

/-- C2: on the PreCached variant, `storage_ref` returns the stored value
when the slot is tracked, zero when the account is present but the slot
untracked, and `MissingAccount` exactly when the account is absent. The
definition performs no remote fetch: it reads only the in-memory
account storage. -/
theorem storage_ref_precached_cases (db : PreCachedDBInner) (address index : Nat) :
    (∀ v, db.accounts.get_storage address index = some v →
      PreCachedDB.storage_ref db address index = RResult.ok v) ∧
    (db.accounts.account_present address = true →
      db.accounts.get_storage address index = none →
      PreCachedDB.storage_ref db address index = RResult.ok 0) ∧
    (PreCachedDB.storage_ref db address index =
        RResult.err (PreCachedDBError.MissingAccount address) ↔
      db.accounts.account_present address = false) := by
  refine ⟨fun v hv => ?_, fun hp hn => ?_, ?_⟩
  · unfold PreCachedDB.storage_ref
    rw [hv]
  · unfold PreCachedDB.storage_ref
    rw [hn, hp]
    rfl
  · unfold PreCachedDB.storage_ref
    cases hv : db.accounts.get_storage address index with
    | some v =>
      have hp := get_storage_some_present db.accounts address index v hv
      simp [hp]
    | none =>
      cases hp : db.accounts.account_present address with
      | true => simp
      | false => simp

/-- Witness for C2: the spec's init-and-read scenario. An account
initialized with slot 1 ↦ 10 reads back 10 from slot 1, zero from the
untracked slot 2, and an address never initialized yields
`MissingAccount`. -/
theorem storage_ref_precached_cases_witness :
    PreCachedDB.storage_ref
      ⟨AccountStorage.new.init_account 0xb4e16d0168e52d35cacd2c6185b44281ec28c9dc
        AccountInfo.default (some [(1, 10)]) true, none⟩
      0xb4e16d0168e52d35cacd2c6185b44281ec28c9dc 1 = RResult.ok 10 ∧
    PreCachedDB.storage_ref
      ⟨AccountStorage.new.init_account 0xb4e16d0168e52d35cacd2c6185b44281ec28c9dc
        AccountInfo.default (some [(1, 10)]) true, none⟩
      0xb4e16d0168e52d35cacd2c6185b44281ec28c9dc 2 = RResult.ok 0 ∧
    PreCachedDB.storage_ref ⟨AccountStorage.new, none⟩
      0xdeadbeef 1 = RResult.err (PreCachedDBError.MissingAccount 0xdeadbeef) := by
  refine ⟨?_, ?_, ?_⟩
  · exact (storage_ref_precached_cases _ _ _).1 10 (by decide)
  · exact (storage_ref_precached_cases _ _ _).2.1 (by decide) (by decide)
  · exact (storage_ref_precached_cases _ _ _).2.2.mpr (by decide)

/-! ### C6: out-of-gas reclassification -/

/-- C6 (amended): for revert data starting with `0x` and known gas values,
the result is `OutOfGas` exactly when `gas_used / gas_limit ≥ 0.97`; at
ratio 0.96 the `TransactionError` survives; and the `OutOfGas`-literal
reclassification applies only to data that does not start with `0x`
(the `0x` arm is matched first and shadows it). -/
theorem maybe_coerce_error_gas_threshold :
    (∀ data gu gl ps r, startsWithStr data (strBytes "0x") = true →
      maybe_coerce_error (SimulationEngineError.TransactionError data (some gu))
        ps (some gl) = some r →
      (r.isOutOfGas = true ↔ 100 * gu ≥ 97 * gl)) ∧
    (∀ data gu gl ps, startsWithStr data (strBytes "0x") = false →
      containsStr data (strBytes "OutOfGas") = true →
      maybe_coerce_error (SimulationEngineError.TransactionError data gu) ps gl =
        some (SimulationEngineError.OutOfGas
          (strBytes "SimulationError: out-of-gas. Original error: " ++ data) ps)) ∧
    maybe_coerce_error
        (SimulationEngineError.TransactionError (strBytes "0xdeadbeef") (some 960))
        (strBytes "test_pool") (some 1000) =
      some (SimulationEngineError.TransactionError
        (strBytes "Revert! Reason: Failed to decode: 0xdeadbeef") (some 960)) := by
  refine ⟨fun data gu gl ps r hs hr => ?_, fun data gu gl ps hs hc => ?_, by decide⟩
  · simp only [maybe_coerce_error, hs, if_true] at hr
    cases hp : parse_solidity_error_message data with
    | none => rw [hp] at hr; simp at hr
    | some reason =>
      rw [hp] at hr
      replace hr : (if 100 * gu ≥ 97 * gl then
          some (SimulationEngineError.OutOfGas
            (strBytes "SimulationError: Likely out-of-gas. Original error: " ++
              strBytes "Revert! Reason: " ++ reason) ps)
        else some (SimulationEngineError.TransactionError
          (strBytes "Revert! Reason: " ++ reason) (some gu))) = some r := hr
      by_cases hge : 100 * gu ≥ 97 * gl
      · rw [if_pos hge] at hr
        simp only [Option.some.injEq] at hr
        subst hr
        simpa [SimulationEngineError.isOutOfGas] using hge
      · rw [if_neg hge] at hr
        simp only [Option.some.injEq] at hr
        subst hr
        simpa [SimulationEngineError.isOutOfGas] using hge
  · simp only [maybe_coerce_error, hs, Bool.false_eq_true, if_false, hc, if_true]

/-- Witness for C6: reclassification at 97% of the gas limit, and the
literal rule firing on non-hex data. -/
theorem maybe_coerce_error_gas_threshold_witness :
    (∀ r, maybe_coerce_error
        (SimulationEngineError.TransactionError (strBytes "0xdeadbeef") (some 970))
        (strBytes "test_pool") (some 1000) = some r → r.isOutOfGas = true) ∧
    maybe_coerce_error (SimulationEngineError.TransactionError (strBytes "OutOfGas") none)
        (strBytes "test_pool") none =
      some (SimulationEngineError.OutOfGas
        (strBytes "SimulationError: out-of-gas. Original error: " ++ strBytes "OutOfGas")
        (strBytes "test_pool")) := by
  constructor
  · intro r hr
    exact (maybe_coerce_error_gas_threshold.1 _ 970 1000 _ r (by decide) hr).mpr
      (by norm_num)
  · exact maybe_coerce_error_gas_threshold.2.1 _ none none _ (by decide) (by decide)

/-- Counterexample for C6 as stated: the data `0xOutOfGas` contains the
literal `OutOfGas`, yet the result stays a `TransactionError` (the
`0x`-prefix arm matches first and the gas ratio is below 97%). -/
theorem maybe_coerce_error_literal_shadowed :
    containsStr (strBytes "0xOutOfGas") (strBytes "OutOfGas") = true ∧
    maybe_coerce_error
        (SimulationEngineError.TransactionError (strBytes "0xOutOfGas") (some 0))
        (strBytes "test_pool") (some 1000) =
      some (SimulationEngineError.TransactionError
        (strBytes "Revert! Reason: Failed to decode: 0xOutOfGas") (some 0)) := by
  exact ⟨by decide, by decide⟩

/-! ### C7: `encode_input` and the function selector -/

/-- C7: whenever the function is found in the ABI with the right number of
arguments, `encode_input` emits exactly the first four bytes of the
Keccak-256 digest of the canonical signature `name(type1,…,typeN)`,
followed by the ABI encoding of the arguments. -/
theorem encode_input_selector_keccak (abi : List (List Nat × List ParamType))
    (fname : List Nat) (args : List Token) (inputs : List ParamType)
    (hfind : ((abi.find? fun f => f.1 = fname).map (·.2)) = some inputs)
    (hlen : inputs.length = args.length) :
    encode_input abi fname args =
      RResult.ok ((keccak256 (canonicalSignature fname inputs)).take 4 ++
        ethabiEncode args) := by
  unfold encode_input
  rw [hfind]
  show (if inputs.length ≠ args.length then
      RResult.err (ProtosimError.EncodingError (strBytes "Invalid argument count"))
    else RResult.ok ((keccak256 (canonicalSignature fname inputs)).take 4 ++
      ethabiEncode args)) = _
  rw [if_neg (by simp [hlen])]

set_option maxRecDepth 100000 in
/-- Witness for C7: for the repository's
`getCapabilities(bytes32,address,address)` call the selector evaluates to
`0x48bd7dfd`, and the calldata is the selector followed by the encoded
arguments of the repository's own test. -/
theorem encode_input_selector_keccak_witness :
    encode_input
        [(strBytes "getCapabilities",
          [ParamType.fixedBytes 32, ParamType.address, ParamType.address])]
        (strBytes "getCapabilities")
        [Token.fixedBytes (beBytes 32
            0x1234567890abcdef1234567890abcdef1234567890abcdef1234567890abcdef),
          Token.address 2, Token.address 3] =
      RResult.ok ([0x48, 0xbd, 0x7d, 0xfd] ++
        ethabiEncode [Token.fixedBytes (beBytes 32
            0x1234567890abcdef1234567890abcdef1234567890abcdef1234567890abcdef),
          Token.address 2, Token.address 3]) := by
  have hsel : (keccak256 (canonicalSignature (strBytes "getCapabilities")
      [ParamType.fixedBytes 32, ParamType.address, ParamType.address])).take 4 =
      [0x48, 0xbd, 0x7d, 0xfd] := by decide
  have h := encode_input_selector_keccak
    [(strBytes "getCapabilities",
      [ParamType.fixedBytes 32, ParamType.address, ParamType.address])]
    (strBytes "getCapabilities")
    [Token.fixedBytes (beBytes 32
        0x1234567890abcdef1234567890abcdef1234567890abcdef1234567890abcdef),
      Token.address 2, Token.address 3]
    [ParamType.fixedBytes 32, ParamType.address, ParamType.address]
    (by decide) (by decide)
  rw [h, hsel]

/-! ### C8: streaming `Creation` updates -/

/-- C8: a streaming `Creation` update carrying a balance and code creates
the account `mocked = true` with exactly that balance and code (and the
code's Keccak-256 as code hash), and the supplied block header becomes
current; together with the spec's concrete scenario: balance 500, empty
code, empty slots, block number 1, read back through `basic_ref` and
`block_number`. -/
theorem update_creation_mocks_account :
    (∀ (db : PreCachedDBInner) (addr bal : Nat) (code : List Nat)
        (slots : List (Nat × Nat)) (hdr : BlockHeader),
      ∃ r, PreCachedDB.update db
          [⟨addr, slots, some bal, some code, ChangeType.Creation⟩] (some hdr) = some r ∧
        ((r.accounts addr).map AccountRecord.mocked = some true) ∧
        (r.accounts.get_account_info addr =
          some (AccountInfo.new bal 0 (keccak256Nat code) code)) ∧
        PreCachedDB.block_number r = some hdr.number) ∧
    ((PreCachedDB.update ⟨AccountStorage.new, none⟩
        [⟨0x7a250d5630b4cf539739df2c5dacb4c659f2488d, [], some 500, some [],
          ChangeType.Creation⟩]
        (some ⟨1, 0, 0⟩)).map
      (fun r => ((PreCachedDB.basic_ref r 0x7a250d5630b4cf539739df2c5dacb4c659f2488d).map
          (fun acc => acc.map (·.balance)),
        PreCachedDB.block_number r)) =
      some (RResult.ok (some 500), some 1)) := by
  constructor
  · intro db addr bal code slots hdr
    refine ⟨⟨(db.accounts.init_account addr
        (AccountInfo.new bal 0 (keccak256Nat code) code) (some slots) true),
        some hdr⟩, rfl, ?_, ?_, rfl⟩
    · simp [AccountStorage.init_account]
    · simp [AccountStorage.get_account_info, AccountStorage.init_account]
  · rfl

/-! ### C1: `update_state` and its revert map -/

/-- The accumulated account-storage effect of an `update_state` batch. -/
def applyUpdates (us : List (Nat × StateUpdate)) (st : AccountStorage) :
    AccountStorage :=
  us.foldl (fun m e => m.update_account e.1 e.2) st

/-- The revert map an `update_state` batch produces, entry by entry, each
computed from the state as it stands when its address is processed. -/
def usReverts : AccountStorage → List (Nat × StateUpdate) → List (Nat × StateUpdate)
  | _, [] => []
  | st, e :: t => (e.1, revertEntryFor st e.1 e.2) :: usReverts (st.update_account e.1 e.2) t

/-- The `update_state` fold splits into the storage effect and the revert map. -/
theorem updateState_fold_eq (us : List (Nat × StateUpdate)) (st : AccountStorage)
    (rev : List (Nat × StateUpdate)) :
    us.foldl updateStateStep (st, rev) = (applyUpdates us st, rev ++ usReverts st us) := by
  induction us generalizing st rev with
  | nil => simp [applyUpdates, usReverts]
  | cons e t ih =>
    rw [List.foldl_cons]
    show (t.foldl updateStateStep
      (st.update_account e.1 e.2, rev ++ [(e.1, revertEntryFor st e.1 e.2)])) = _
    rw [ih]
    simp [applyUpdates, usReverts]

/-- `update_state` in terms of `applyUpdates` and `usReverts`. -/
theorem update_state_eq (db : PreCachedDBInner) (us : List (Nat × StateUpdate))
    (b : BlockHeader) :
    PreCachedDB.update_state db us b =
      (⟨applyUpdates us db.accounts, some b⟩, usReverts db.accounts us) := by
  unfold PreCachedDB.update_state
  rw [updateState_fold_eq]
  rfl

/-- `update_account` does not touch other addresses. -/
theorem update_account_ne (st : AccountStorage) (a : Nat) (u : StateUpdate)
    (b : Nat) (h : b ≠ a) : st.update_account a u b = st b := by
  unfold AccountStorage.update_account
  rw [if_neg h]

/-- `update_account` at its own address maps the record through the update. -/
theorem update_account_self (st : AccountStorage) (a : Nat) (u : StateUpdate) :
    st.update_account a u a = (st a).map (applyStateUpdate u) := by
  unfold AccountStorage.update_account
  rw [if_pos rfl]

/-- `get_storage` reads only the account at its address. -/
theorem get_storage_congr (st₁ st₂ : AccountStorage) (a : Nat)
    (h : st₁ a = st₂ a) (k : Nat) : st₁.get_storage a k = st₂.get_storage a k := by
  unfold AccountStorage.get_storage
  rw [h]

/-- `get_account_info` reads only the account at its address. -/
theorem get_account_info_congr (st₁ st₂ : AccountStorage) (a : Nat)
    (h : st₁ a = st₂ a) : st₁.get_account_info a = st₂.get_account_info a := by
  unfold AccountStorage.get_account_info
  rw [h]

/-- The revert entry for an address depends only on that account. -/
theorem revertEntryFor_congr (st₁ st₂ : AccountStorage) (a : Nat) (u : StateUpdate)
    (h : st₁ a = st₂ a) : revertEntryFor st₁ a u = revertEntryFor st₂ a u := by
  have hgs : st₁.get_storage a = st₂.get_storage a :=
    funext fun k => get_storage_congr st₁ st₂ a h k
  unfold revertEntryFor
  rw [hgs, get_account_info_congr st₁ st₂ a h]

/-- Addresses outside the batch are untouched by `applyUpdates`. -/
theorem applyUpdates_ne (us : List (Nat × StateUpdate)) (st : AccountStorage)
    (a : Nat) (h : a ∉ us.map Prod.fst) : applyUpdates us st a = st a := by
  induction us generalizing st with
  | nil => rfl
  | cons e t ih =>
    simp only [List.map_cons, List.mem_cons, not_or] at h
    show applyUpdates t (st.update_account e.1 e.2) a = st a
    rw [ih _ h.2, update_account_ne st e.1 e.2 a h.1]

/-- With pairwise-distinct addresses, the batch effect at a touched address
is exactly its own entry's effect on the original record. -/
theorem applyUpdates_at (us : List (Nat × StateUpdate)) (st : AccountStorage)
    (a : Nat) (u : StateUpdate) (hnd : (us.map Prod.fst).Nodup)
    (hm : (a, u) ∈ us) : applyUpdates us st a = (st a).map (applyStateUpdate u) := by
  induction us generalizing st with
  | nil => cases hm
  | cons e t ih =>
    rw [List.map_cons, List.nodup_cons] at hnd
    rcases List.mem_cons.mp hm with he | ht
    · subst he
      show applyUpdates t (st.update_account a u) a = (st a).map (applyStateUpdate u)
      rw [applyUpdates_ne t _ a hnd.1, update_account_self]
    · have hne : a ≠ e.1 := by
        intro hEq
        exact hnd.1 (hEq ▸ List.mem_map.mpr ⟨(a, u), ht, rfl⟩)
      show applyUpdates t (st.update_account e.1 e.2) a = (st a).map (applyStateUpdate u)
      rw [ih _ hnd.2 ht, update_account_ne st e.1 e.2 a hne]

/-- The revert map lists exactly the batch's addresses, in order. -/
theorem usReverts_map_fst (us : List (Nat × StateUpdate)) (st : AccountStorage) :
    (usReverts st us).map Prod.fst = us.map Prod.fst := by
  induction us generalizing st with
  | nil => rfl
  | cons e t ih => simp [usReverts, ih]

/-- With pairwise-distinct addresses, the revert map contains each touched
address paired with the revert entry computed from the original state. -/
theorem usReverts_mem (us : List (Nat × StateUpdate)) (st : AccountStorage)
    (a : Nat) (u : StateUpdate) (hnd : (us.map Prod.fst).Nodup)
    (hm : (a, u) ∈ us) : (a, revertEntryFor st a u) ∈ usReverts st us := by
  induction us generalizing st with
  | nil => cases hm
  | cons e t ih =>
    rw [List.map_cons, List.nodup_cons] at hnd
    rcases List.mem_cons.mp hm with he | ht
    · subst he
      exact List.mem_cons_self _ _
    · have hne : a ≠ e.1 := by
        intro hEq
        exact hnd.1 (hEq ▸ List.mem_map.mpr ⟨(a, u), ht, rfl⟩)
      have hframe : (st.update_account e.1 e.2) a = st a :=
        update_account_ne st e.1 e.2 a hne
      have hrec := ih (st.update_account e.1 e.2) hnd.2 ht
      rw [revertEntryFor_congr _ _ a u hframe] at hrec
      exact List.mem_cons_of_mem _ hrec

/-- A key outside an association list is unaffected by `applySlots`. -/
theorem applySlots_not_mem (l : List (Nat × Nat)) (m : Nat → Option Nat)
    (k : Nat) (h : k ∉ l.map Prod.fst) : applySlots l m k = m k := by
  induction l generalizing m with
  | nil => rfl
  | cons e t ih =>
    simp only [List.map_cons, List.mem_cons, not_or] at h
    show applySlots t (insertSlot m e.1 e.2) k = m k
    rw [ih _ h.2]
    unfold insertSlot
    rw [if_neg h.1]

/-- With pairwise-distinct keys, `applySlots` stores each listed pair. -/
theorem applySlots_mem_nodup (l : List (Nat × Nat)) (m : Nat → Option Nat)
    (k v : Nat) (hnd : (l.map Prod.fst).Nodup) (hm : (k, v) ∈ l) :
    applySlots l m k = some v := by
  induction l generalizing m with
  | nil => cases hm
  | cons e t ih =>
    rw [List.map_cons, List.nodup_cons] at hnd
    rcases List.mem_cons.mp hm with he | ht
    · subst he
      show applySlots t (insertSlot m k v) k = some v
      rw [applySlots_not_mem t _ k hnd.1]
      unfold insertSlot
      rw [if_pos rfl]
    · exact ih _ hnd.2 ht

/-- A listed key whose slot is tracked appears in `trackedPairs` with its
tracked value. -/
theorem trackedPairs_mem (gs : Nat → Option Nat) (l : List (Nat × Nat))
    (k v o : Nat) (hm : (k, v) ∈ l) (ho : gs k = some o) :
    (k, o) ∈ trackedPairs gs l := by
  unfold trackedPairs
  exact List.mem_filterMap.mpr ⟨(k, v), hm, by simp [ho]⟩

/-- Keys of `trackedPairs` come from the original list. -/
theorem trackedPairs_fst_sub (gs : Nat → Option Nat) (l : List (Nat × Nat))
    (k : Nat) (h : k ∈ (trackedPairs gs l).map Prod.fst) : k ∈ l.map Prod.fst := by
  unfold trackedPairs at h
  rw [List.mem_map] at h
  obtain ⟨p, hp, rfl⟩ := h
  rw [List.mem_filterMap] at hp
  obtain ⟨kv, hkv, hf⟩ := hp
  cases hgs : gs kv.1 with
  | none => rw [hgs] at hf; cases hf
  | some s =>
    rw [hgs] at hf
    cases hf
    exact List.mem_map.mpr ⟨kv, hkv, rfl⟩

/-- `trackedPairs` preserves distinctness of keys. -/
theorem trackedPairs_fst_nodup (gs : Nat → Option Nat) (l : List (Nat × Nat))
    (hnd : (l.map Prod.fst).Nodup) : ((trackedPairs gs l).map Prod.fst).Nodup := by
  induction l with
  | nil => exact List.nodup_nil
  | cons e t ih =>
    rw [List.map_cons, List.nodup_cons] at hnd
    unfold trackedPairs
    cases hgs : gs e.1 with
    | none =>
      rw [List.filterMap_cons_none (by simp [hgs])]
      exact ih hnd.2
    | some s =>
      rw [List.filterMap_cons_some (b := (e.1, s)) (by simp [hgs])]
      rw [List.map_cons, List.nodup_cons]
      refine ⟨fun hmem => ?_, ih hnd.2⟩
      exact hnd.1 (trackedPairs_fst_sub gs t e.1 hmem)

/-- C1 (amended): `update_state(updates, b1)` followed by
`update_state(revert_map, b2)` restores, for every touched account that was
present, its balance, and, for every touched slot that was tracked before
the first call, its value as observed by `get_storage` and `storage_ref`.
(Slots the update writes that were untracked before keep the new value:
the revert map records nothing for them.) -/
theorem update_state_revert_restores_tracked
    (db : PreCachedDBInner) (updates : List (Nat × StateUpdate)) (b1 b2 : BlockHeader)
    (hnd : (updates.map Prod.fst).Nodup)
    (a : Nat) (u : StateUpdate) (hmem : (a, u) ∈ updates)
    (hpres : (db.accounts a).isSome)
    (hknd : ((u.storage.getD []).map Prod.fst).Nodup) :
    (((PreCachedDB.update_state (PreCachedDB.update_state db updates b1).1
        (PreCachedDB.update_state db updates b1).2 b2).1.accounts.get_account_info a).map
      (·.balance) = (db.accounts.get_account_info a).map (·.balance)) ∧
    ∀ kv ∈ u.storage.getD [], (db.accounts.get_storage a kv.1).isSome →
      (PreCachedDB.update_state (PreCachedDB.update_state db updates b1).1
          (PreCachedDB.update_state db updates b1).2 b2).1.accounts.get_storage a kv.1 =
        db.accounts.get_storage a kv.1 ∧
      PreCachedDB.storage_ref (PreCachedDB.update_state (PreCachedDB.update_state db updates b1).1
          (PreCachedDB.update_state db updates b1).2 b2).1 a kv.1 =
        PreCachedDB.storage_ref db a kv.1 := by
  obtain ⟨rec, hrec⟩ := Option.isSome_iff_exists.mp hpres
  set A := db.accounts with hA
  set ra := revertEntryFor A a u with hra
  -- the state after both calls, at address a
  have hstep1 : (PreCachedDB.update_state db updates b1) =
      (⟨applyUpdates updates A, some b1⟩, usReverts A updates) := update_state_eq db updates b1
  have hstep2 : (PreCachedDB.update_state (PreCachedDB.update_state db updates b1).1
      (PreCachedDB.update_state db updates b1).2 b2) =
      (⟨applyUpdates (usReverts A updates) (applyUpdates updates A), some b2⟩,
        usReverts (applyUpdates updates A) (usReverts A updates)) := by
    rw [hstep1]
    exact update_state_eq _ _ b2
  have hrevnd : ((usReverts A updates).map Prod.fst).Nodup := by
    rw [usReverts_map_fst]; exact hnd
  have hrevmem : (a, ra) ∈ usReverts A updates := usReverts_mem updates A a u hnd hmem
  have hat1 : applyUpdates updates A a = some (applyStateUpdate u rec) := by
    rw [applyUpdates_at updates A a u hnd hmem, hrec]
    rfl
  have hat2 : applyUpdates (usReverts A updates) (applyUpdates updates A) a =
      some (applyStateUpdate ra (applyStateUpdate u rec)) := by
    rw [applyUpdates_at (usReverts A updates) _ a ra hrevnd hrevmem, hat1]
    rfl
  -- balance restoration
  have hbal : (applyStateUpdate ra (applyStateUpdate u rec)).info.balance =
      rec.info.balance := by
    have hrab : ra.balance = some rec.info.balance := by
      rw [hra]
      unfold revertEntryFor AccountStorage.get_account_info
      rw [hrec]
      rfl
    unfold applyStateUpdate
    rw [hrab]
    rfl
  constructor
  · rw [hstep2]
    show ((AccountStorage.get_account_info (applyUpdates (usReverts A updates)
      (applyUpdates updates A)) a).map (·.balance)) = _
    unfold AccountStorage.get_account_info
    rw [hat2, hrec]
    simp [hbal]
  · intro kv hkv htracked
    -- the update actually carries a storage map
    cases hus : u.storage with
    | none => rw [hus] at hkv; cases hkv
    | some l =>
    rw [hus] at hkv hknd
    simp only [Option.getD_some] at hkv hknd
    obtain ⟨o, ho⟩ := Option.isSome_iff_exists.mp htracked
    -- the tracked original value o
    have hgs2 : (applyUpdates (usReverts A updates) (applyUpdates updates A)).get_storage
        a kv.1 = some o := by
      unfold AccountStorage.get_storage
      rw [hat2]
      unfold AccountStorage.get_storage at ho
      rw [hrec] at ho
      replace ho : (match rec.temp kv.1 with
        | some v => some v
        | none => rec.permanent kv.1) = some o := ho
      show (match (applyStateUpdate ra (applyStateUpdate u rec)).temp kv.1 with
        | some v => some v
        | none => (applyStateUpdate ra (applyStateUpdate u rec)).permanent kv.1) = some o
      have htemp : (applyStateUpdate ra (applyStateUpdate u rec)).temp = rec.temp := rfl
      rw [htemp]
      cases ht : rec.temp kv.1 with
      | some t =>
        rw [ht] at ho
        exact ho
      | none =>
        rw [ht] at ho
        -- o is the permanent value; the revert entry re-inserts it
        have hperm : (applyStateUpdate ra (applyStateUpdate u rec)).permanent kv.1 =
            some o := by
          have hrs : ra.storage = some (trackedPairs (A.get_storage a) l) := by
            rw [hra]
            unfold revertEntryFor
            rw [hus]
            rfl
          have hmem' : (kv.1, o) ∈ trackedPairs (A.get_storage a) l :=
            trackedPairs_mem _ l kv.1 kv.2 o hkv (by
              unfold AccountStorage.get_storage
              rw [hrec]
              show (match rec.temp kv.1 with
                | some v => some v
                | none => rec.permanent kv.1) = some o
              rw [ht]
              exact ho)
          have hnd' : ((trackedPairs (A.get_storage a) l).map Prod.fst).Nodup :=
            trackedPairs_fst_nodup _ l hknd
          show applySlots (ra.storage.getD [])
            (applyStateUpdate u rec).permanent kv.1 = some o
          rw [hrs]
          exact applySlots_mem_nodup _ _ kv.1 o hnd' hmem'
        rw [hperm]
    have hfinal : (PreCachedDB.update_state (PreCachedDB.update_state db updates b1).1
        (PreCachedDB.update_state db updates b1).2 b2).1.accounts.get_storage a kv.1 =
        some o := by
      rw [hstep2]
      exact hgs2
    refine ⟨by rw [hfinal, ho], ?_⟩
    unfold PreCachedDB.storage_ref
    rw [hfinal, hstep2]
    show _ = (match A.get_storage a kv.1 with
      | some v => RResult.ok v
      | none => if A.account_present a then RResult.ok 0
        else RResult.err (PreCachedDBError.MissingAccount a))
    rw [ho]

/-- Witness for C1: an account with tracked slot 5 ↦ 3 and balance 0 is
updated to 5 ↦ 7 together with the previously untracked slot 9 ↦ 11 and
balance 500, then the revert map is applied; the tracked slot 5 and the
balance read back with their original values even though slot 9 was
untracked. -/
theorem update_state_revert_restores_tracked_witness :
    (((PreCachedDB.update_state (PreCachedDB.update_state
        ⟨AccountStorage.new.init_account 1 AccountInfo.default (some [(5, 3)]) true, none⟩
        [(1, ⟨some [(5, 7), (9, 11)], some 500⟩)] ⟨1, 0, 0⟩).1
        (PreCachedDB.update_state
        ⟨AccountStorage.new.init_account 1 AccountInfo.default (some [(5, 3)]) true, none⟩
        [(1, ⟨some [(5, 7), (9, 11)], some 500⟩)] ⟨1, 0, 0⟩).2 ⟨0, 0, 0⟩).1.accounts.get_account_info
          1).map (·.balance) =
      ((⟨AccountStorage.new.init_account 1 AccountInfo.default (some [(5, 3)]) true,
        none⟩ : PreCachedDBInner).accounts.get_account_info 1).map (·.balance)) ∧
    (PreCachedDB.update_state (PreCachedDB.update_state
        ⟨AccountStorage.new.init_account 1 AccountInfo.default (some [(5, 3)]) true, none⟩
        [(1, ⟨some [(5, 7), (9, 11)], some 500⟩)] ⟨1, 0, 0⟩).1
        (PreCachedDB.update_state
        ⟨AccountStorage.new.init_account 1 AccountInfo.default (some [(5, 3)]) true, none⟩
        [(1, ⟨some [(5, 7), (9, 11)], some 500⟩)] ⟨1, 0, 0⟩).2 ⟨0, 0, 0⟩).1.accounts.get_storage 1 5 =
      (⟨AccountStorage.new.init_account 1 AccountInfo.default (some [(5, 3)]) true,
        none⟩ : PreCachedDBInner).accounts.get_storage 1 5 := by
  have h := update_state_revert_restores_tracked
    ⟨AccountStorage.new.init_account 1 AccountInfo.default (some [(5, 3)]) true, none⟩
    [(1, ⟨some [(5, 7), (9, 11)], some 500⟩)] ⟨1, 0, 0⟩ ⟨0, 0, 0⟩ (by decide)
    1 ⟨some [(5, 7), (9, 11)], some 500⟩ (by simp) (by decide) (by decide)
  exact ⟨h.1, (h.2 (5, 7) (by simp) (by decide)).1⟩

/-- Counterexample for C1 as stated: writing slot 5 of a present account
whose slot 5 was untracked, then applying the returned revert map, leaves
the new value 7 in place — `storage_ref` reports 0 before the round trip
and 7 after it. -/
theorem update_state_revert_untracked_slot_lost :
    PreCachedDB.storage_ref
        (PreCachedDB.update_state (PreCachedDB.update_state
          ⟨AccountStorage.new.init_account 1 AccountInfo.default none true, none⟩
          [(1, ⟨some [(5, 7)], none⟩)] ⟨1, 0, 0⟩).1
          (PreCachedDB.update_state
          ⟨AccountStorage.new.init_account 1 AccountInfo.default none true, none⟩
          [(1, ⟨some [(5, 7)], none⟩)] ⟨1, 0, 0⟩).2 ⟨0, 0, 0⟩).1 1 5 = RResult.ok 7 ∧
    PreCachedDB.storage_ref
        ⟨AccountStorage.new.init_account 1 AccountInfo.default none true, none⟩ 1 5 =
      RResult.ok 0 ∧
    RResult.ok (ε := PreCachedDBError) 7 ≠ RResult.ok 0 := by
  refine ⟨by decide, by decide, by decide⟩

end Protosim
